import Mathlib

/-!
Shallow embedding of `src/bot.py` (Messaging Automation Bot demo).

Modelling conventions:
* Timestamps are local-time instants measured in integer seconds (`Int`);
  `dayStart t` is the midnight of `t`'s local day, mirroring Python's
  `datetime.replace(hour=0, minute=0, second=0, microsecond=0)`.
  The fixed Pacific timezone is abstracted away (all instants are already
  local); DST shifts are not modelled, as no claim depends on them.
* Randomness is made explicit: every call of `random.randint` /
  `random.choice` / `random.uniform` becomes a parameter of the embedded
  function, constrained by hypotheses matching the distribution's support.
* The mutable global store `cal.events` becomes explicit state passing:
  each operation takes the event list and returns the new list.
* Wall-clock sleeping in the demo loop becomes a supplied sequence of
  sleep durations (rationals standing for the real-valued
  `random.uniform(2, 6)` results).
-/

namespace Bot

/-- Midnight (00:00:00) of the local day containing instant `t`, in seconds.
Mirrors `datetime.replace(hour=0, minute=0, second=0, microsecond=0)`. -/
def dayStart (t : Int) : Int := t - t % 86400

/-- One calendar event, as stored in `MockCalendar.events`
(`src/bot.py` lines 45-52): the dict keys become fields.  `end` is a Lean
keyword, so the field is named `endTime`.  Timestamps are kept as instants
rather than ISO strings; `datetime.fromisoformat` on read is the identity
under this representation. -/
structure Event where
  id : String
  summary : String
  start : Int
  endTime : Int
  updated : Int
  kpi_estimate : Nat
deriving Repr, DecidableEq

/-- `MockCalendar.list_events` (`src/bot.py` lines 54-60): walk the store in
order, appending each event whose `start` lies in `[start_date, end_date]`. -/
def list_events (events : List Event) (start_date end_date : Int) : List Event :=
  match events with
  | [] => []
  | e :: rest =>
      if start_date ≤ e.start ∧ e.start ≤ end_date then
        e :: list_events rest start_date end_date
      else
        list_events rest start_date end_date

/-- One seeded event: iteration `i` (1-based) of the loop in
`MockCalendar._seed_events` (`src/bot.py` lines 42-52).  `kpi` is the
`random.randint(10, 200)` draw. -/
def mkSeedEvent (now : Int) (i : Nat) (kpi : Nat) : Event :=
  let start := dayStart (now + ((i : Int) - 1) * 86400) + 9 * 3600
  { id := "evt-" ++ Nat.repr i
    summary := "Mock Event " ++ Nat.repr i
    start := start
    endTime := start + 3600
    updated := start - 3600
    kpi_estimate := kpi }

/-- `MockCalendar._seed_events` (`src/bot.py` lines 39-52): starting from the
empty store built in `__init__`, append one event for each `i` in
`range(1, 11)`.  `kpis` supplies the ten random KPI draws. -/
def seed_events (now : Int) (kpis : Nat → Nat) : List Event :=
  (List.range 10).map (fun j => mkSeedEvent now (j + 1) (kpis (j + 1)))

/-- `MockCalendar.simulate_new_event` (`src/bot.py` lines 62-76).
`d` is the `random.randint(0, 5)` day offset and `kpi` the
`random.randint(5, 300)` draw; the new event is appended and returned. -/
def simulate_new_event (now : Int) (d : Nat) (kpi : Nat) (events : List Event) :
    Event × List Event :=
  let i := events.length + 1
  let start := dayStart (now + (d : Int) * 86400) + 10 * 3600
  let evt : Event :=
    { id := "evt-" ++ Nat.repr i
      summary := "Simulated Event " ++ Nat.repr i
      start := start
      endTime := start + 3600
      updated := now
      kpi_estimate := kpi }
  (evt, events ++ [evt])

/-- `MockCalendar.simulate_update_event` (`src/bot.py` lines 78-86).
On an empty store, return `none` and leave the store alone.  Otherwise
`random.choice` is modelled by the index `pick % events.length`, and `inc`
is the `random.randint(1, 50)` KPI bump; the chosen event's `updated` is set
to `now` and its `kpi_estimate` increased, in place. -/
def simulate_update_event (now : Int) (pick inc : Nat) (events : List Event) :
    Option Event × List Event :=
  if h : events.length = 0 then
    (none, events)
  else
    let i : Fin events.length := ⟨pick % events.length, Nat.mod_lt _ (Nat.pos_of_ne_zero h)⟩
    let e := events.get i
    let e2 := { e with updated := now, kpi_estimate := e.kpi_estimate + inc }
    (some e2, events.set i e2)

/-- `format_event` (`src/bot.py` lines 91-93), with the `strftime` date
rendering replaced by decimal seconds (display formatting is out of the
claims' scope). -/
def format_event (e : Event) : String :=
  "- " ++ e.summary ++ " (" ++ toString e.start ++ ") — KPI est: " ++ Nat.repr e.kpi_estimate

/-- `daily_digest` (`src/bot.py` lines 95-107): query today's window
`[start-of-day, start-of-day + 1 day − 1 s]` and render.  Returns the store
it leaves behind together with the printed lines. -/
def daily_digest (now : Int) (events : List Event) : List Event × List String :=
  let start := dayStart now
  let e := start + (86400 - 1)
  let evs := list_events events start e
  (events,
    if evs.length ≠ 0 then "DAILY DIGEST" :: evs.map format_event
    else ["DAILY DIGEST", "No events scheduled for today."])

/-- The event list computed by the `today` branch of `interactive_console`
(`src/bot.py` lines 150-154): window `[midnight, midnight + 1 day − 1 s]`. -/
def todayEvents (now : Int) (events : List Event) : List Event :=
  list_events events (dayStart now) (dayStart now + (86400 - 1))

/-- The event list computed by the `week` branch of `interactive_console`
(`src/bot.py` lines 159-163): window `[now, now + 7 days]`. -/
def weekEvents (now : Int) (events : List Event) : List Event :=
  list_events events now (now + 7 * 86400)

/-- The `kpi` branch of `interactive_console` (`src/bot.py` lines 168-178):
events in `[now, now + 7 days]`, their count, KPI total, and average
(`total / len(events) if events else 0`, modelled in `ℚ`). -/
def kpiSummary (now : Int) (events : List Event) : Nat × Nat × ℚ :=
  let evs := list_events events now (now + 7 * 86400)
  let total := (evs.map Event.kpi_estimate).sum
  let avg : ℚ := if evs.length ≠ 0 then (total : ℚ) / (evs.length : ℚ) else 0
  (evs.length, total, avg)

/-- Python's `input.strip().lower()` (`src/bot.py` line 138): drop leading
and trailing whitespace, then lowercase each character.  Implemented over
the character list so it evaluates by kernel reduction. -/
def strip_lower (input : String) : String :=
  List.asString
    ((((input.data.dropWhile Char.isWhitespace).reverse.dropWhile
        Char.isWhitespace).reverse).map Char.toLower)

/-- Whether the command loop continues prompting or breaks out. -/
inductive LoopCtl where
| cont : LoopCtl
| stop : LoopCtl
deriving Repr, DecidableEq

/-- One iteration of `interactive_console`'s `while True` body
(`src/bot.py` lines 136-180) on a successfully read input line: normalise
with `strip().lower()`, dispatch, and return the store left behind, the
printed lines, and whether the loop continues. -/
def interactive_step (now : Int) (input : String) (events : List Event) :
    List Event × List String × LoopCtl :=
  let cmd := strip_lower input
  if cmd = "" then (events, [], .cont)
  else if cmd = "exit" ∨ cmd = "quit" then (events, ["Goodbye."], .stop)
  else if cmd = "help" then (events, ["Commands: today, week, kpi, help, exit"], .cont)
  else if cmd = "today" then
    (events, "Events for today:" :: (todayEvents now events).map format_event, .cont)
  else if cmd = "week" then
    (events, "Events for next 7 days:" :: (weekEvents now events).map format_event, .cont)
  else if cmd = "kpi" then
    let s := kpiSummary now events
    (events,
      ["KPI Summary (next 7 days):",
       "  Events: " ++ Nat.repr s.1,
       "  Total KPI est: " ++ Nat.repr s.2.1],
      .cont)
  else (events, ["Unknown command. Type help."], .cont)

/-- The `while time.time() - start < duration` loop of `run_demo`
(`src/bot.py` lines 122-130), tracking elapsed time: each iteration first
sleeps `sleeps i` (the `random.uniform(2, 6)` draw), then runs the alert
body.  `fuel` bounds the unrolling; `some n` means the loop exited normally
after `n` iterations, `none` that the fuel ran out first. -/
def demoLoop (duration : ℚ) (sleeps : ℕ → ℚ) : ℕ → ℚ → ℕ → Option ℕ
  | 0, elapsed, i => if elapsed < duration then none else some i
  | fuel + 1, elapsed, i =>
      if elapsed < duration then demoLoop duration sleeps fuel (elapsed + sleeps i) (i + 1)
      else some i

/-- `run_demo` (`src/bot.py` lines 116-131): one immediate `daily_digest()`
call, then the timed alert loop.  The first component counts digest
invocations (the loop body never calls the digest), the second is the loop
outcome. -/
def run_demo (duration : ℚ) (sleeps : ℕ → ℚ) (fuel : ℕ) : ℕ × Option ℕ :=
  (1, demoLoop duration sleeps fuel 0 0)

/-- A fixed concrete seeded store (seed time 0, all KPI draws 10), used as the
concrete input of several witnesses. -/
def demoStore : List Event := seed_events 0 (fun _ => 10)

/-! ### Helper lemmas -/

theorem list_events_eq_filter (es : List Event) (a b : Int) :
    list_events es a b = es.filter (fun e => decide (a ≤ e.start ∧ e.start ≤ b)) := by
  induction es with
  | nil => rfl
  | cons e rest ih =>
      by_cases h : a ≤ e.start ∧ e.start ≤ b <;>
        simp [list_events, List.filter_cons, h, ih]

theorem mem_list_events {es : List Event} {a b : Int} {e : Event} :
    e ∈ list_events es a b ↔ e ∈ es ∧ (a ≤ e.start ∧ e.start ≤ b) := by
  rw [list_events_eq_filter]
  simp [List.mem_filter]

/-! ### Claim theorems -/

/-- C1: for every range `[a, b]` and store, `list_events` returns exactly the
stored events whose start `s` satisfies `a ≤ s ≤ b`, in store order (it is
the order-preserving filter of the store), and an empty range (`a > b`)
yields the empty result. -/
theorem C1_list_events_range (a b : Int) (es : List Event) :
    list_events es a b = es.filter (fun e => decide (a ≤ e.start ∧ e.start ≤ b)) ∧
    (b < a → list_events es a b = []) := by
  refine ⟨list_events_eq_filter es a b, fun hba => ?_⟩
  rw [list_events_eq_filter]
  refine List.filter_eq_nil_iff.mpr fun e _ => ?_
  simp only [decide_eq_true_eq, not_and]
  intro h1 h2
  omega

theorem C1_list_events_range_witness :
    list_events demoStore 5 3 =
      demoStore.filter (fun e => decide ((5 : Int) ≤ e.start ∧ e.start ≤ 3)) ∧
    list_events demoStore 5 3 = [] :=
  ⟨(C1_list_events_range 5 3 demoStore).1,
   (C1_list_events_range 5 3 demoStore).2 (by decide)⟩

/-- C10: the `week` branch and the `kpi` branch evaluate the same window
`[now, now + 7 days]` over the same store: the `kpi` aggregation runs over
exactly the events `week` lists, its event count is the length of the `week`
listing, and its KPI total is the sum over the `week` listing. -/
theorem C10_week_kpi_same_window (now : Int) (es : List Event) :
    weekEvents now es = list_events es now (now + 7 * 86400) ∧
    (kpiSummary now es).1 = (weekEvents now es).length ∧
    (kpiSummary now es).2.1 = ((weekEvents now es).map Event.kpi_estimate).sum := by
  exact ⟨rfl, rfl, rfl⟩

/-- Three events with KPI estimates 10, 20, 30, all starting inside the
7-day window from instant 0: the concrete store of C5's example. -/
def kpiDemoEvents : List Event :=
  [{ id := "k1", summary := "A", start := 1000, endTime := 4600, updated := 0, kpi_estimate := 10 },
   { id := "k2", summary := "B", start := 2000, endTime := 5600, updated := 0, kpi_estimate := 20 },
   { id := "k3", summary := "C", start := 3000, endTime := 6600, updated := 0, kpi_estimate := 30 }]

/-- C5: the `kpi` branch reports, over the events starting in
`[now, now + 7 days]`, their count, the sum of their `kpi_estimate`s, and
the average `sum / count` (0 when the count is 0, with no division fault);
on a window containing exactly KPI estimates 10, 20, 30 it reports
`(3, 60, 20)`. -/
theorem C5_kpi_summary (now : Int) (es : List Event) :
    (kpiSummary now es).1 = (list_events es now (now + 7 * 86400)).length ∧
    (kpiSummary now es).2.1 = ((list_events es now (now + 7 * 86400)).map Event.kpi_estimate).sum ∧
    ((kpiSummary now es).1 ≠ 0 →
      (kpiSummary now es).2.2 = ((kpiSummary now es).2.1 : ℚ) / ((kpiSummary now es).1 : ℚ)) ∧
    ((kpiSummary now es).1 = 0 → (kpiSummary now es).2.2 = 0) ∧
    kpiSummary 0 kpiDemoEvents = (3, 60, 20) := by
  refine ⟨rfl, rfl, ?_, ?_, ?_⟩
  · intro h
    simp only [kpiSummary] at h ⊢
    rw [if_pos h]
  · intro h
    simp only [kpiSummary] at h ⊢
    rw [if_neg (not_ne_iff.mpr h)]
  · have h1 : list_events kpiDemoEvents 0 (0 + 7 * 86400) = kpiDemoEvents := by decide
    simp only [kpiSummary, h1]
    norm_num [kpiDemoEvents]

theorem C5_kpi_summary_witness :
    (kpiSummary 0 kpiDemoEvents).2.2
        = ((kpiSummary 0 kpiDemoEvents).2.1 : ℚ) / ((kpiSummary 0 kpiDemoEvents).1 : ℚ) ∧
    (kpiSummary 0 ([] : List Event)).2.2 = 0 :=
  ⟨(C5_kpi_summary 0 kpiDemoEvents).2.2.1 (by decide),
   (C5_kpi_summary 0 []).2.2.2.1 (by decide)⟩

/-- C8: the digest job and every command-loop dispatch leave the event store
unchanged (the store component returned is the input store, for every
input line), and an unknown command additionally keeps the loop running,
producing only the diagnostic line. -/
theorem C8_readers_never_mutate (now : Int) (input : String) (es : List Event) :
    (interactive_step now input es).1 = es ∧
    (daily_digest now es).1 = es ∧
    (strip_lower input ∉ ["", "exit", "quit", "help", "today", "week", "kpi"] →
      interactive_step now input es = (es, ["Unknown command. Type help."], LoopCtl.cont)) := by
  refine ⟨?_, rfl, ?_⟩
  · simp only [interactive_step]
    split_ifs <;> rfl
  · intro hu
    simp only [List.mem_cons, List.not_mem_nil, or_false, not_or] at hu
    obtain ⟨h0, h1, h2, h3, h4, h5, h6⟩ := hu
    simp only [interactive_step, if_neg h0, if_neg (not_or.mpr ⟨h1, h2⟩), if_neg h3,
      if_neg h4, if_neg h5, if_neg h6]

theorem C8_readers_never_mutate_witness :
    (interactive_step 0 "frobnicate" demoStore).1 = demoStore ∧
    interactive_step 0 "frobnicate" demoStore =
      (demoStore, ["Unknown command. Type help."], LoopCtl.cont) :=
  ⟨(C8_readers_never_mutate 0 "frobnicate" demoStore).1,
   (C8_readers_never_mutate 0 "frobnicate" demoStore).2.2 (by decide)⟩

/-- C4: seeding produces exactly 10 events; the event at position `j`
(`j < 10`) starts on day `j` counted from `now`'s day (so one event per day,
days 0 through 9), and satisfies `start < end` with `end − start` exactly
one hour. -/
theorem C4_seeding (now : Int) (kpis : Nat → Nat) (j : Nat) (hj : j < 10) :
    (seed_events now kpis).length = 10 ∧
    ∃ e, (seed_events now kpis)[j]? = some e ∧
      dayStart e.start = dayStart now + (j : Int) * 86400 ∧
      e.start < e.endTime ∧
      e.endTime - e.start = 3600 := by
  refine ⟨by simp [seed_events], mkSeedEvent now (j + 1) (kpis (j + 1)), ?_, ?_, ?_, ?_⟩
  · simp [seed_events, List.getElem?_map, List.getElem?_range, hj]
  · simp only [mkSeedEvent, dayStart]
    push_cast
    omega
  · simp only [mkSeedEvent]
    omega
  · simp only [mkSeedEvent]
    omega

theorem C4_seeding_witness :
    (seed_events 0 (fun _ => 10)).length = 10 ∧
    ∃ e, (seed_events 0 (fun _ => 10))[3]? = some e ∧
      dayStart e.start = dayStart 0 + ((3 : Nat) : Int) * 86400 ∧
      e.start < e.endTime ∧
      e.endTime - e.start = 3600 :=
  C4_seeding 0 (fun _ => 10) 3 (by decide)

/-- An event whose start is 23:59:59 of day 0 (taking `now = 0`, so
`dayStart now = 0`). -/
def lateEvent : Event :=
  { id := "late", summary := "L", start := 86399, endTime := 89999, updated := 0, kpi_estimate := 1 }

/-- An event whose start is 00:00:00 of the next local day after instant 0. -/
def nextDayEvent : Event :=
  { id := "next", summary := "N", start := 86400, endTime := 90000, updated := 0, kpi_estimate := 1 }

/-- C6: the today window runs from local midnight to 23:59:59 inclusive: a
stored event starting at 23:59:59 of the current day is listed, one starting
at the next local midnight is not; and the daily digest renders exactly the
events of that same window. -/
theorem C6_today_boundary (now : Int) (es : List Event) (e1 e2 : Event)
    (hs1 : e1.start = dayStart now + 86399) (h1 : e1 ∈ es)
    (hs2 : e2.start = dayStart now + 86400) (_h2 : e2 ∈ es) :
    e1 ∈ todayEvents now es ∧ e2 ∉ todayEvents now es ∧
    (daily_digest now es).2 =
      (if (todayEvents now es).length ≠ 0 then
        "DAILY DIGEST" :: (todayEvents now es).map format_event
       else ["DAILY DIGEST", "No events scheduled for today."]) := by
  refine ⟨?_, ?_, rfl⟩
  · exact mem_list_events.mpr ⟨h1, by omega, by omega⟩
  · intro hmem
    have h := (mem_list_events.mp hmem).2
    omega

theorem C6_today_boundary_witness :
    lateEvent ∈ todayEvents 0 [lateEvent, nextDayEvent] ∧
    nextDayEvent ∉ todayEvents 0 [lateEvent, nextDayEvent] ∧
    (daily_digest 0 [lateEvent, nextDayEvent]).2 =
      (if (todayEvents 0 [lateEvent, nextDayEvent]).length ≠ 0 then
        "DAILY DIGEST" :: (todayEvents 0 [lateEvent, nextDayEvent]).map format_event
       else ["DAILY DIGEST", "No events scheduled for today."]) :=
  C6_today_boundary 0 [lateEvent, nextDayEvent] lateEvent nextDayEvent
    (by decide) (by decide) (by decide) (by decide)

theorem simulate_update_event_eq (now : Int) (pick inc : Nat) (es : List Event)
    (hne : es.length ≠ 0) (e : Event) (he : es[pick % es.length]? = some e) :
    simulate_update_event now pick inc es =
      (some { e with updated := now, kpi_estimate := e.kpi_estimate + inc },
       es.set (pick % es.length) { e with updated := now, kpi_estimate := e.kpi_estimate + inc }) := by
  obtain ⟨hlt, hget⟩ := List.getElem?_eq_some_iff.mp he
  unfold simulate_update_event
  rw [dif_neg hne]
  have hg : es.get ⟨pick % es.length, Nat.mod_lt _ (Nat.pos_of_ne_zero hne)⟩ = e := hget
  dsimp only
  rw [hg]

/-- C3: `simulate_update_event` on an empty store returns `none` and leaves
the store untouched; on a non-empty store it rewrites the randomly chosen
event in place with `updated = now` and a strictly larger `kpi_estimate`
(the bump `inc` being at least 1), returns that event, the event is a member
of the resulting store, and every other position is unchanged. -/
theorem C3_mutate_random_event (now : Int) (pick inc : Nat) (es : List Event)
    (hinc : 1 ≤ inc) :
    (es.length = 0 → simulate_update_event now pick inc es = (none, es)) ∧
    (∀ e, es[pick % es.length]? = some e →
      simulate_update_event now pick inc es =
        (some { e with updated := now, kpi_estimate := e.kpi_estimate + inc },
         es.set (pick % es.length) { e with updated := now, kpi_estimate := e.kpi_estimate + inc }) ∧
      ({ e with updated := now, kpi_estimate := e.kpi_estimate + inc } : Event) ∈
        (simulate_update_event now pick inc es).2 ∧
      ({ e with updated := now, kpi_estimate := e.kpi_estimate + inc } : Event).updated = now ∧
      e.kpi_estimate < e.kpi_estimate + inc ∧
      ∀ j, j ≠ pick % es.length →
        ((simulate_update_event now pick inc es).2)[j]? = es[j]?) := by
  constructor
  · intro h0
    simp [simulate_update_event, h0]
  · intro e he
    obtain ⟨hlt, hget⟩ := List.getElem?_eq_some_iff.mp he
    have hne : es.length ≠ 0 := by
      intro h0
      rw [h0] at hlt
      simp at hlt
    have heq := simulate_update_event_eq now pick inc es hne e he
    refine ⟨heq, ?_, rfl, by omega, ?_⟩
    · rw [heq]
      exact List.mem_set es (pick % es.length) hlt _
    · intro j hj
      rw [heq]
      exact List.getElem?_set_ne (Ne.symm hj)

theorem C3_mutate_random_event_witness :
    simulate_update_event 1000 2 5 ([] : List Event) = (none, []) ∧
    simulate_update_event 1000 2 5 demoStore =
      (some { mkSeedEvent 0 3 10 with
          updated := 1000,
          kpi_estimate := (mkSeedEvent 0 3 10).kpi_estimate + 5 },
       demoStore.set (2 % demoStore.length)
        { mkSeedEvent 0 3 10 with
          updated := 1000,
          kpi_estimate := (mkSeedEvent 0 3 10).kpi_estimate + 5 }) :=
  ⟨(C3_mutate_random_event 1000 2 5 [] (by decide)).1 rfl,
   ((C3_mutate_random_event 1000 2 5 demoStore (by decide)).2 (mkSeedEvent 0 3 10)
      (by decide)).1⟩

/-- C2 as stated is false on the code: a simulated update always writes the
call's `now` into `updated`, but seeding writes `start − 1h`, which for an
event seeded on a future day lies ahead of real time; an update arriving
before that instant lowers `updated`.  Concretely: seeding at instant 0
gives the second event `updated = 115200` (8:00 of day 1), and an update at
instant 1000 (later than the seeding instant 0) rewrites it to `1000 <
115200`. -/
theorem C2_counterexample :
    (0 : Int) ≤ 1000 ∧
    ((seed_events 0 (fun _ => 10))[1]?).map Event.updated = some 115200 ∧
    (((simulate_update_event 1000 1 1 (seed_events 0 (fun _ => 10))).2)[1]?).map Event.updated
      = some 1000 ∧
    ¬ ((115200 : Int) ≤ 1000) := by decide

/-- C2 amended: each simulated update writes the call's `now` into the chosen
event's `updated`, and untouched events keep theirs; hence `updated` is
non-decreasing across a simulated update provided the call's `now` is not
earlier than the event's previous `updated` value.  (From seeding to a first
update this premise can fail, because seeding sets `updated` to `start − 1h`,
which may lie in the future — see the counterexample.) -/
theorem C2_updated_monotone_updates (now : Int) (pick inc : Nat) (es : List Event)
    (j : Nat) (e e2 : Event)
    (hj : es[j]? = some e)
    (hj2 : ((simulate_update_event now pick inc es).2)[j]? = some e2)
    (hnow : e.updated ≤ now) :
    e.updated ≤ e2.updated ∧ (j = pick % es.length → e2.updated = now) := by
  obtain ⟨hlt, hget⟩ := List.getElem?_eq_some_iff.mp hj
  have hne : es.length ≠ 0 := by omega
  have hklt : pick % es.length < es.length := Nat.mod_lt _ (Nat.pos_of_ne_zero hne)
  obtain ⟨ep, hep⟩ : ∃ ep, es[pick % es.length]? = some ep :=
    ⟨es.get ⟨pick % es.length, hklt⟩, List.getElem?_eq_some_iff.mpr ⟨hklt, rfl⟩⟩
  have heq := simulate_update_event_eq now pick inc es hne ep hep
  rw [heq] at hj2
  by_cases hjk : j = pick % es.length
  · subst hjk
    rw [List.getElem?_set_self hlt] at hj2
    have he2 : e2 = { ep with updated := now, kpi_estimate := ep.kpi_estimate + inc } := by
      injection hj2 with h
      exact h.symm
    refine ⟨?_, fun _ => by rw [he2]⟩
    rw [he2]
    exact hnow
  · rw [List.getElem?_set_ne (fun h => hjk h.symm)] at hj2
    rw [hj] at hj2
    have he2 : e2 = e := by
      injection hj2 with h
      exact h.symm
    exact ⟨by rw [he2], fun h => absurd h hjk⟩

theorem C2_updated_monotone_updates_witness :
    (mkSeedEvent 0 2 10).updated ≤
      ({ mkSeedEvent 0 2 10 with
         updated := 200000,
         kpi_estimate := (mkSeedEvent 0 2 10).kpi_estimate + 1 } : Event).updated ∧
    (1 = 1 % demoStore.length →
      ({ mkSeedEvent 0 2 10 with
         updated := 200000,
         kpi_estimate := (mkSeedEvent 0 2 10).kpi_estimate + 1 } : Event).updated = 200000) :=
  C2_updated_monotone_updates 200000 1 1 demoStore 1 (mkSeedEvent 0 2 10)
    ({ mkSeedEvent 0 2 10 with
       updated := 200000,
       kpi_estimate := (mkSeedEvent 0 2 10).kpi_estimate + 1 })
    (by decide) (by decide) (by decide)

/-! ### Injectivity of `Nat.repr`, via a decimal decode round-trip -/

/-- Numeric value of a decimal digit character. -/
def digitVal (c : Char) : Nat := c.toNat - 48

/-- Decode a decimal digit string back to a number (left fold). -/
def decodeDigits (l : List Char) : Nat :=
  l.foldl (fun a c => a * 10 + digitVal c) 0

/-- `a` followed by the decimal digits of `n`, as a number. -/
def pushNum (a : Nat) (n : Nat) : Nat :=
  if _h : n < 10 then a * 10 + n
  else pushNum a (n / 10) * 10 + n % 10
decreasing_by exact Nat.div_lt_self (by omega) (by omega)

theorem pushNum_zero (n : Nat) : pushNum 0 n = n := by
  induction n using Nat.strong_induction_on with
  | _ n ih =>
    unfold pushNum
    split
    · simp
    · rename_i h
      rw [ih (n / 10) (Nat.div_lt_self (by omega) (by omega))]
      omega

theorem digitVal_digitChar : ∀ n, n < 10 → digitVal (Nat.digitChar n) = n := by decide

theorem toDigitsCore_succ (b fuel n : Nat) (ds : List Char) :
    Nat.toDigitsCore b (fuel + 1) n ds =
      if n / b = 0 then Nat.digitChar (n % b) :: ds
      else Nat.toDigitsCore b fuel (n / b) (Nat.digitChar (n % b) :: ds) := rfl

theorem toDigitsCore_foldl (fuel : ℕ) :
    ∀ (n a : ℕ) (ds : List Char), n ≤ fuel →
      List.foldl (fun a c => a * 10 + digitVal c) a (Nat.toDigitsCore 10 (fuel + 1) n ds)
        = List.foldl (fun a c => a * 10 + digitVal c) (pushNum a n) ds := by
  induction fuel with
  | zero =>
      intro n a ds hn
      have hn0 : n = 0 := by omega
      subst hn0
      rw [toDigitsCore_succ, if_pos (by norm_num)]
      simp only [List.foldl_cons]
      rw [digitVal_digitChar 0 (by norm_num)]
      rw [pushNum]
      simp
  | succ fuel ih =>
      intro n a ds hn
      rw [toDigitsCore_succ]
      by_cases h10 : n < 10
      · rw [if_pos (Nat.div_eq_of_lt h10)]
        simp only [List.foldl_cons]
        rw [digitVal_digitChar (n % 10) (Nat.mod_lt _ (by omega)),
          Nat.mod_eq_of_lt h10, pushNum, dif_pos h10]
      · rw [if_neg (by omega)]
        rw [ih (n / 10) a (Nat.digitChar (n % 10) :: ds) (by omega)]
        simp only [List.foldl_cons]
        rw [digitVal_digitChar (n % 10) (Nat.mod_lt _ (by omega))]
        conv_rhs => rw [pushNum, dif_neg h10]

theorem decodeDigits_toDigits (n : ℕ) : decodeDigits (Nat.toDigits 10 n) = n := by
  unfold Nat.toDigits decodeDigits
  rw [toDigitsCore_foldl n n 0 [] (le_refl n)]
  simp only [List.foldl_nil]
  exact pushNum_zero n

theorem repr_inj {m n : ℕ} (h : Nat.repr m = Nat.repr n) : m = n := by
  have hd : Nat.toDigits 10 m = Nat.toDigits 10 n := congrArg String.data h
  calc m = decodeDigits (Nat.toDigits 10 m) := (decodeDigits_toDigits m).symm
    _ = decodeDigits (Nat.toDigits 10 n) := by rw [hd]
    _ = n := decodeDigits_toDigits n

theorem evt_id_inj {m n : ℕ} (h : "evt-" ++ Nat.repr m = "evt-" ++ Nat.repr n) :
    m = n := by
  apply repr_inj
  have hd := congrArg String.data h
  simp only [String.data_append] at hd
  have := List.append_cancel_left hd
  exact String.ext this

/-- The store's id discipline: position `i` (0-based) holds id `evt-(i+1)`.
This holds after seeding and is preserved by `simulate_new_event`; updates
never touch ids. -/
def idsSeq (es : List Event) : Prop :=
  ∀ i : Fin es.length, (es.get i).id = "evt-" ++ Nat.repr (i.1 + 1)

instance (es : List Event) : Decidable (idsSeq es) := by
  unfold idsSeq
  infer_instance

/-- C7: `simulate_new_event` appends exactly one event (the store becomes the
old store plus the returned event, so nothing existing changes and the length
grows by 1); under the store's id discipline the new id differs from every
stored id (and the discipline is preserved); and, the random day offset `d`
being at most 5, the new start lies within today through 5 days ahead. -/
theorem C7_new_event (now : Int) (d kpi : Nat) (es : List Event)
    (hd : d ≤ 5) (hids : idsSeq es) :
    (simulate_new_event now d kpi es).2 = es ++ [(simulate_new_event now d kpi es).1] ∧
    (simulate_new_event now d kpi es).2.length = es.length + 1 ∧
    (simulate_new_event now d kpi es).1.id ∉ es.map Event.id ∧
    dayStart now ≤ (simulate_new_event now d kpi es).1.start ∧
    (simulate_new_event now d kpi es).1.start < dayStart now + 6 * 86400 ∧
    idsSeq (simulate_new_event now d kpi es).2 := by
  refine ⟨rfl, by simp [simulate_new_event], ?_, ?_, ?_, ?_⟩
  · intro hmem
    simp only [List.mem_map] at hmem
    obtain ⟨e, hmem, hid⟩ := hmem
    obtain ⟨i, hi⟩ := List.get_of_mem hmem
    rw [← hi, hids i] at hid
    have := evt_id_inj hid
    omega
  · simp only [simulate_new_event, dayStart]
    push_cast
    omega
  · simp only [simulate_new_event, dayStart]
    push_cast
    omega
  · intro i
    by_cases hi : i.1 < es.length
    · have h1 : ((simulate_new_event now d kpi es).2).get i = es.get ⟨i.1, hi⟩ := by
        show ((es ++ [(simulate_new_event now d kpi es).1]).get i) = _
        rw [List.get_eq_getElem, List.get_eq_getElem, List.getElem_append_left hi]
      rw [h1, hids ⟨i.1, hi⟩]
    · have hlen : ((simulate_new_event now d kpi es).2).length = es.length + 1 := by
        simp [simulate_new_event]
      have hieq : i.1 = es.length := by
        have h2 := i.2
        omega
      have h1 : ((simulate_new_event now d kpi es).2).get i = (simulate_new_event now d kpi es).1 := by
        show ((es ++ [(simulate_new_event now d kpi es).1]).get i) = _
        rw [List.get_eq_getElem, List.getElem_append_right (by omega)]
        simp [hieq]
      rw [h1, hieq]
      rfl

theorem C7_new_event_witness :
    (simulate_new_event 0 3 42 demoStore).2
        = demoStore ++ [(simulate_new_event 0 3 42 demoStore).1] ∧
    (simulate_new_event 0 3 42 demoStore).2.length = demoStore.length + 1 ∧
    (simulate_new_event 0 3 42 demoStore).1.id ∉ demoStore.map Event.id ∧
    dayStart 0 ≤ (simulate_new_event 0 3 42 demoStore).1.start ∧
    (simulate_new_event 0 3 42 demoStore).1.start < dayStart 0 + 6 * 86400 ∧
    idsSeq (simulate_new_event 0 3 42 demoStore).2 :=
  C7_new_event 0 3 42 demoStore (by decide) (by decide)

theorem demoLoop_terminates (duration : ℚ) (sleeps : ℕ → ℚ)
    (hs : ∀ j, 2 ≤ sleeps j) :
    ∀ (fuel : ℕ) (elapsed : ℚ) (i : ℕ), duration ≤ elapsed + 2 * fuel →
      ∃ n, demoLoop duration sleeps fuel elapsed i = some n ∧ n ≤ i + fuel := by
  intro fuel
  induction fuel with
  | zero =>
      intro elapsed i hdur
      refine ⟨i, ?_, le_refl i⟩
      simp only [demoLoop]
      rw [if_neg (by push_cast at hdur ⊢; linarith)]
  | succ fuel ih =>
      intro elapsed i hdur
      simp only [demoLoop]
      by_cases hlt : elapsed < duration
      · rw [if_pos hlt]
        obtain ⟨n, hn, hle⟩ := ih (elapsed + sleeps i) (i + 1)
          (by have := hs i; push_cast at hdur ⊢; linarith)
        exact ⟨n, hn, by omega⟩
      · rw [if_neg hlt]
        exact ⟨i, rfl, by omega⟩

/-- C9: `run_demo` performs the daily digest exactly once, up front, and its
alert loop — whose every iteration first sleeps at least 2 time units —
terminates: with duration 30 the elapsed-time exit condition is reached
within 15 iterations (so `fuel ≥ 15` unrolling steps always suffice and the
loop never blocks indefinitely). -/
theorem C9_run_demo_terminates (sleeps : ℕ → ℚ) (fuel : ℕ)
    (hs : ∀ j, 2 ≤ sleeps j) (hf : 15 ≤ fuel) :
    (run_demo 30 sleeps fuel).1 = 1 ∧
    ∃ n, (run_demo 30 sleeps fuel).2 = some n ∧ n ≤ fuel := by
  refine ⟨rfl, ?_⟩
  have hdur : (30 : ℚ) ≤ 0 + 2 * (fuel : ℚ) := by
    have h15 : (15 : ℚ) ≤ (fuel : ℚ) := by exact_mod_cast hf
    linarith
  obtain ⟨n, hn, hle⟩ := demoLoop_terminates 30 sleeps hs fuel 0 0 hdur
  exact ⟨n, hn, by omega⟩

theorem C9_run_demo_terminates_witness :
    (run_demo 30 (fun _ => 2) 15).1 = 1 ∧
    ∃ n, (run_demo 30 (fun _ => 2) 15).2 = some n ∧ n ≤ 15 :=
  C9_run_demo_terminates (fun _ => 2) 15 (fun _ => le_refl 2) (le_refl 15)

end Bot
